import Mathlib

/-!
Verification of the pump-and-dump detection pipeline of the `blokchain`
repository.

The Python source is shallowly embedded:
* `pump_n_dump.py` — the detector `detect_pump_and_dump_whale_not_included`:
  whale filtering, block-interval assignment, per-(interval, token)
  aggregation, the per-token lookback loop, and the evidence filter.
* `modify_transactions.py` — `safe_eth_conversion` (wei-to-eth parsing).
* `split_data.py` — `split_jsonl` (byte-budgeted line splitter).

Python strings are modelled as `List Char`, Python numbers as `ℚ`
(exact arithmetic; the claims under study are about exponents, windows and
thresholds, not about float rounding), machine integers as `ℕ`/`ℤ`.
A pandas DataFrame of transactions is modelled as a `List Tx`.
-/

/-- A normalized transaction row, with the columns that
`detect_pump_and_dump_whale_not_included` reads: `block_number`,
`tx_token_type` (the address of the first receipt log, `none` when the
receipt has no logs) and `tx_value_eth`. -/
structure Tx where
  block_number : ℕ
  tx_token_type : Option String
  tx_value_eth : ℚ
deriving DecidableEq

/-- Hard-coded whale cap of `detect_pump_and_dump_whale_not_included`
(`whale_cap = 500 # eth`). -/
def whale_cap : ℚ := 500

/-- Source: `transactions_df["interval"] = (transactions_df["block_number"] // interval_blocks) + 1`. -/
def intervalId (interval_blocks block_number : ℕ) : ℕ :=
  block_number / interval_blocks + 1

/-- The `interval` column of a transaction row. -/
def txInterval (interval_blocks : ℕ) (t : Tx) : ℕ :=
  intervalId interval_blocks t.block_number

/-- Source: `transactions_df[transactions_df["tx_value_eth"] < whale_cap]`. -/
def whaleFilter (txs : List Tx) : List Tx :=
  txs.filter (fun t => decide (t.tx_value_eth < whale_cap))

/-- Source: `transactions_df.sort_values(by="block_number")` (a stable sort
on the block number, modelled by `List.mergeSort`). -/
def sortByBlock (txs : List Tx) : List Tx :=
  txs.mergeSort (fun a b => a.block_number ≤ b.block_number)

/-- Source: `interval_sums = transactions_df.groupby(["interval", "tx_token_type"])["tx_value_eth"].sum()`
after the sort and the whale filter: the aggregate value at key
`(iv, some tok)` is the sum of `tx_value_eth` over the non-whale rows of
that interval and token.  (pandas `groupby` drops rows whose key is null,
so only `some tok` keys occur.) -/
def interval_sums (interval_blocks : ℕ) (txs : List Tx) (iv : ℕ) (tok : String) : ℚ :=
  ((((sortByBlock txs).filter (fun t => decide (t.tx_value_eth < whale_cap))).filter
      (fun t => decide (txInterval interval_blocks t = iv) &&
        decide (t.tx_token_type = some tok))).map Tx.tx_value_eth).sum

/-- Direction tag separating the `pump_intervals` and `dump_intervals`
output lists. -/
inductive Direction where
  | pump
  | dump
deriving DecidableEq

/-- One element of the detector's `pump_intervals` / `dump_intervals`
output: the dict
`{"interval": ..., "token_type": ..., "current_interval_sum": ..., "previous_interval_sum": ..., "difference": ...}`. -/
structure PumpDumpEvent where
  interval : ℕ
  token_type : String
  current_interval_sum : ℚ
  previous_interval_sum : ℚ
  difference : ℚ
deriving DecidableEq

/-- One iteration of the detector's inner loop, at loop index `i`
(the Python loop runs `i` over `range(pump_threshold_interval, len(group) + 1)`):
`current = group.iloc[i - 1]`, `previous = group.iloc[i - pump_threshold_interval]`,
`difference = current - previous`; `difference > pump_threshold_value`
appends a pump dict, `elif difference < -pump_threshold_value` a dump dict.
A token group is the list of its `(interval, tx_value_eth)` aggregate rows,
interval ascending, positionally indexed exactly as `group.iloc`. -/
def detectStep (pump_threshold_value : ℚ) (pump_threshold_interval : ℕ) (tok : String)
    (g : List (ℕ × ℚ)) (i : ℕ) : Option (Direction × PumpDumpEvent) :=
  match g[i - 1]?, g[i - pump_threshold_interval]? with
  | some cur, some prev =>
    if pump_threshold_value < cur.2 - prev.2 then
      some (Direction.pump, ⟨cur.1, tok, cur.2, prev.2, cur.2 - prev.2⟩)
    else if cur.2 - prev.2 < -pump_threshold_value then
      some (Direction.dump, ⟨cur.1, tok, cur.2, prev.2, cur.2 - prev.2⟩)
    else none
  | _, _ => none

/-- The detector's loop over one token group: Python
`for i in range(pump_threshold_interval, len(group) + 1)` with the body
`detectStep`; the pair collects the `pump_intervals` and `dump_intervals`
entries contributed by this group, in loop order. -/
def detectToken (pump_threshold_value : ℚ) (pump_threshold_interval : ℕ) (tok : String)
    (g : List (ℕ × ℚ)) : List PumpDumpEvent × List PumpDumpEvent :=
  let evs := (List.range' pump_threshold_interval (g.length + 1 - pump_threshold_interval)).filterMap
    (detectStep pump_threshold_value pump_threshold_interval tok g)
  ((evs.filter (fun e => e.1 == Direction.pump)).map Prod.snd,
   (evs.filter (fun e => e.1 == Direction.dump)).map Prod.snd)

/-- The detector's outer loop `for token_type, group in grouped`, over the
partition of the aggregate rows by token: events are appended to the two
output lists token-partition by token-partition. -/
def detectAll (pump_threshold_value : ℚ) (pump_threshold_interval : ℕ)
    (parts : List (String × List (ℕ × ℚ))) : List PumpDumpEvent × List PumpDumpEvent :=
  ((parts.map fun p => (detectToken pump_threshold_value pump_threshold_interval p.1 p.2).1).flatten,
   (parts.map fun p => (detectToken pump_threshold_value pump_threshold_interval p.1 p.2).2).flatten)

/-- Positional access into a token group treated as a 1-indexed sequence,
as the spec describes it: `sum1 g j` is the aggregate row at 1-indexed
position `j`. -/
def sum1 (g : List (ℕ × ℚ)) (j : ℕ) : Option (ℕ × ℚ) :=
  g[j - 1]?

/-- Modelled from the claim C1 wording: at every 1-indexed position `i`
from `lookback_intervals` to `N`, `difference = sum[i] - sum[i - lookback_intervals]`;
a position whose reference `sum[i - lookback_intervals]` does not exist
(`i - lookback_intervals < 1`) emits nothing. -/
def claimedStep (pump_threshold_value : ℚ) (pump_threshold_interval : ℕ) (tok : String)
    (g : List (ℕ × ℚ)) (i : ℕ) : Option (Direction × PumpDumpEvent) :=
  match sum1 g i, (if pump_threshold_interval + 1 ≤ i then sum1 g (i - pump_threshold_interval) else none) with
  | some cur, some prev =>
    if pump_threshold_value < cur.2 - prev.2 then
      some (Direction.pump, ⟨cur.1, tok, cur.2, prev.2, cur.2 - prev.2⟩)
    else if cur.2 - prev.2 < -pump_threshold_value then
      some (Direction.dump, ⟨cur.1, tok, cur.2, prev.2, cur.2 - prev.2⟩)
    else none
  | _, _ => none

/-- The per-token detection that claim C1 describes, built from `claimedStep`
over the same positions `lookback_intervals .. N`. -/
def claimedDetectToken (pump_threshold_value : ℚ) (pump_threshold_interval : ℕ) (tok : String)
    (g : List (ℕ × ℚ)) : List PumpDumpEvent × List PumpDumpEvent :=
  let evs := (List.range' pump_threshold_interval (g.length + 1 - pump_threshold_interval)).filterMap
    (claimedStep pump_threshold_value pump_threshold_interval tok g)
  ((evs.filter (fun e => e.1 == Direction.pump)).map Prod.snd,
   (evs.filter (fun e => e.1 == Direction.dump)).map Prod.snd)

/-- Modelled from the amended claim C1: at every 1-indexed position `i`
from `lookback_intervals` to `N`,
`difference = sum[i] - sum[i - lookback_intervals + 1]`. -/
def amendedStep (pump_threshold_value : ℚ) (pump_threshold_interval : ℕ) (tok : String)
    (g : List (ℕ × ℚ)) (i : ℕ) : Option (Direction × PumpDumpEvent) :=
  match sum1 g i, sum1 g (i - pump_threshold_interval + 1) with
  | some cur, some prev =>
    if pump_threshold_value < cur.2 - prev.2 then
      some (Direction.pump, ⟨cur.1, tok, cur.2, prev.2, cur.2 - prev.2⟩)
    else if cur.2 - prev.2 < -pump_threshold_value then
      some (Direction.dump, ⟨cur.1, tok, cur.2, prev.2, cur.2 - prev.2⟩)
    else none
  | _, _ => none

/-- The per-token detection that the amended claim C1 describes. -/
def amendedDetectToken (pump_threshold_value : ℚ) (pump_threshold_interval : ℕ) (tok : String)
    (g : List (ℕ × ℚ)) : List PumpDumpEvent × List PumpDumpEvent :=
  let evs := (List.range' pump_threshold_interval (g.length + 1 - pump_threshold_interval)).filterMap
    (amendedStep pump_threshold_value pump_threshold_interval tok g)
  ((evs.filter (fun e => e.1 == Direction.pump)).map Prod.snd,
   (evs.filter (fun e => e.1 == Direction.dump)).map Prod.snd)

/-- Claim C1 (amended): for every token partition sorted by interval_id and
treated as a 1-indexed positional sequence of length N, and every position
`i` from `lookback_intervals` to `N`, the detector computes
`difference = sum[i] - sum[i - lookback_intervals + 1]`; it emits a PUMP
event at `interval_id = sum[i].interval_id` iff `difference > pump_threshold_value`,
a DUMP event iff `difference < -pump_threshold_value`, and nothing otherwise:
the source loop coincides with this positional description. -/
theorem detectToken_positional_lookback (pump_threshold_value : ℚ)
    (pump_threshold_interval : ℕ) (tok : String) (g : List (ℕ × ℚ))
    (_hL : 1 ≤ pump_threshold_interval) :
    detectToken pump_threshold_value pump_threshold_interval tok g =
      amendedDetectToken pump_threshold_value pump_threshold_interval tok g := by
  unfold detectToken amendedDetectToken
  have h : ∀ i ∈ List.range' pump_threshold_interval
      (g.length + 1 - pump_threshold_interval),
      detectStep pump_threshold_value pump_threshold_interval tok g i =
        amendedStep pump_threshold_value pump_threshold_interval tok g i := by
    intro i _
    unfold detectStep amendedStep sum1
    have h1 : i - pump_threshold_interval + 1 - 1 = i - pump_threshold_interval := by omega
    rw [h1]
  rw [List.filterMap_congr h]

/-- Witness for `detectToken_positional_lookback` at a concrete input. -/
theorem detectToken_positional_lookback_witness :
    detectToken 2500 3 "T" [(1, 100), (2, 200)] =
      amendedDetectToken 2500 3 "T" [(1, 100), (2, 200)] :=
  detectToken_positional_lookback 2500 3 "T" [(1, 100), (2, 200)] (by decide)

/-- Counterexample to claim C1 as stated: on the token group with sums
`[3000, 0, 0, 0]` at intervals 1..4, `lookback_intervals = 3`,
`pump_threshold_value = 2500`, the claimed rule
`difference = sum[i] - sum[i - lookback_intervals]` yields exactly one DUMP
at interval 4, but the source emits its one DUMP at interval 3 (the code's
previous row is `group.iloc[i - lookback_intervals]`, the 1-indexed position
`i - lookback_intervals + 1`). -/
theorem detectToken_claimC1_cex :
    claimedDetectToken 2500 3 "T" [(1, 3000), (2, 0), (3, 0), (4, 0)] =
      ([], [⟨4, "T", 0, 3000, -3000⟩]) ∧
    detectToken 2500 3 "T" [(1, 3000), (2, 0), (3, 0), (4, 0)] =
      ([], [⟨3, "T", 0, 3000, -3000⟩]) ∧
    claimedDetectToken 2500 3 "T" [(1, 3000), (2, 0), (3, 0), (4, 0)] ≠
      detectToken 2500 3 "T" [(1, 3000), (2, 0), (3, 0), (4, 0)] := by
  have h1 : claimedDetectToken 2500 3 "T" [(1, 3000), (2, 0), (3, 0), (4, 0)] =
      ([], [⟨4, "T", 0, 3000, -3000⟩]) := by
    norm_num [claimedDetectToken, claimedStep, sum1, List.range', List.filterMap] ; decide
  have h2 : detectToken 2500 3 "T" [(1, 3000), (2, 0), (3, 0), (4, 0)] =
      ([], [⟨3, "T", 0, 3000, -3000⟩]) := by
    norm_num [detectToken, detectStep, List.range', List.filterMap] ; decide
  refine ⟨h1, h2, ?_⟩
  rw [h1, h2]
  simp

/-- Counterexample to claim C3 as stated: with sums `[3000, 100, 100, 100]`
at intervals 1..4, `lookback_intervals = 3`, `pump_threshold_value = 2500`,
the source yields exactly one DUMP event with difference `-2900`, but at
position 3 (interval_id 3), not at position 4 as claimed. -/
theorem dump_example_position_cex :
    (detectToken 2500 3 "T" [(1, 3000), (2, 100), (3, 100), (4, 100)]).2 =
      [⟨3, "T", 100, 3000, -2900⟩] ∧
    (detectToken 2500 3 "T" [(1, 3000), (2, 100), (3, 100), (4, 100)]).2 ≠
      [⟨4, "T", 100, 3000, -2900⟩] := by
  have h : detectToken 2500 3 "T" [(1, 3000), (2, 100), (3, 100), (4, 100)] =
      ([], [⟨3, "T", 100, 3000, -2900⟩]) := by
    norm_num [detectToken, detectStep, List.range', List.filterMap] ; decide
  refine ⟨by rw [h], ?_⟩
  rw [h]
  simp

/-- Claim C3 (amended): with `lookback_intervals = 3` and
`pump_threshold_value = 2500`, a token whose positional sequence of
per-interval non-whale sums is `[3000, 100, 100, 100]` yields exactly one
DUMP event and no PUMP event; the DUMP is emitted at position 3 with
`difference = 100 - 3000 = -2900`. -/
theorem dump_example_events :
    detectToken 2500 3 "T" [(1, 3000), (2, 100), (3, 100), (4, 100)] =
      ([], [⟨3, "T", 100, 3000, -2900⟩]) := by
  norm_num [detectToken, detectStep, List.range', List.filterMap] ; decide

/-- Claim C4: with `lookback_intervals = 3` and `pump_threshold_value = 2500`,
a token whose positional sequence of per-interval non-whale sums is
`[100, 100, 100, 3000]` yields exactly one PUMP event, at position 4 with
`difference = 3000 - 100 = 2900`; no other position emits anything. -/
theorem pump_example_events :
    detectToken 2500 3 "T" [(1, 100), (2, 100), (3, 100), (4, 3000)] =
      ([⟨4, "T", 3000, 100, 2900⟩], []) := by
  norm_num [detectToken, detectStep, List.range', List.filterMap] ; decide

/-- Claim C7: `interval_id = block_number / blocks_per_interval + 1` is
1-based and non-decreasing in `block_number`, and with
`blocks_per_interval = 50`, block 0 maps to interval 1, block 49 to
interval 1 and block 50 to interval 2. -/
theorem intervalId_props (interval_blocks b1 b2 : ℕ) (h : b1 ≤ b2) :
    intervalId interval_blocks b1 = b1 / interval_blocks + 1 ∧
    1 ≤ intervalId interval_blocks b1 ∧
    intervalId interval_blocks b1 ≤ intervalId interval_blocks b2 ∧
    intervalId 50 0 = 1 ∧ intervalId 50 49 = 1 ∧ intervalId 50 50 = 2 := by
  refine ⟨rfl, Nat.succ_le_succ (Nat.zero_le _), ?_, rfl, rfl, rfl⟩
  exact Nat.succ_le_succ (Nat.div_le_div_right h)

/-- Witness for `intervalId_props` at `blocks_per_interval = 50`,
blocks 0 and 49. -/
theorem intervalId_props_witness :
    intervalId 50 0 = 0 / 50 + 1 ∧ 1 ≤ intervalId 50 0 ∧
    intervalId 50 0 ≤ intervalId 50 49 ∧
    intervalId 50 0 = 1 ∧ intervalId 50 49 = 1 ∧ intervalId 50 50 = 2 :=
  intervalId_props 50 0 49 (by decide)

/-- Claim C8: a token partition with fewer than `lookback_intervals`
aggregate rows contributes zero events (the loop body never runs, no error),
and the detector output over a partition list containing such a token equals
the output with that token removed — the other partitions are processed
unchanged. -/
theorem insufficient_data_no_events (pump_threshold_value : ℚ)
    (pump_threshold_interval : ℕ) (tok : String) (g : List (ℕ × ℚ))
    (parts : List (String × List (ℕ × ℚ)))
    (h : g.length < pump_threshold_interval) :
    detectToken pump_threshold_value pump_threshold_interval tok g = ([], []) ∧
    detectAll pump_threshold_value pump_threshold_interval ((tok, g) :: parts) =
      detectAll pump_threshold_value pump_threshold_interval parts := by
  have h0 : g.length + 1 - pump_threshold_interval = 0 := by omega
  have hdt : detectToken pump_threshold_value pump_threshold_interval tok g = ([], []) := by
    unfold detectToken
    rw [h0]
    simp [List.range']
  refine ⟨hdt, ?_⟩
  unfold detectAll
  simp [hdt]

/-- Witness for `insufficient_data_no_events`: a single-row partition with
`lookback_intervals = 3`. -/
theorem insufficient_data_no_events_witness :
    detectToken 2500 3 "T" [(1, 100)] = ([], []) ∧
    detectAll 2500 3 [("T", [(1, 100)])] = detectAll 2500 3 [] :=
  insufficient_data_no_events 2500 3 "T" [(1, 100)] [] (by decide)

/-- Source (evidence display inside `detect_pump_and_dump_whale_not_included`):
for a flagged event, the rows of `transactions_df` — at this point the
sorted, whale-filtered frame with the `interval` column — with
`interval >= interval - 2`, `interval <= interval` and matching
`tx_token_type`. -/
def relevant_transactions (interval_blocks event_interval : ℕ) (tok : String)
    (txs : List Tx) : List Tx :=
  ((sortByBlock txs).filter (fun t => decide (t.tx_value_eth < whale_cap))).filter
    (fun t => decide ((event_interval : ℤ) - 2 ≤ (txInterval interval_blocks t : ℤ)) &&
      decide (txInterval interval_blocks t ≤ event_interval) &&
      decide (t.tx_token_type = some tok))

/-- Modelled from the claim C5 wording: from the FULL normalized-transaction
set, exactly the transactions whose `token_type` equals the event's and whose
`interval_id` lies in `[event.interval_id - 2, event.interval_id]`. -/
def claimed_relevant_transactions (interval_blocks event_interval : ℕ) (tok : String)
    (txs : List Tx) : List Tx :=
  txs.filter
    (fun t => decide ((event_interval : ℤ) - 2 ≤ (txInterval interval_blocks t : ℤ)) &&
      decide (txInterval interval_blocks t ≤ event_interval) &&
      decide (t.tx_token_type = some tok))

/-- Counterexample to claim C5 as stated: a whale transaction (600 eth ≥
whale_cap) of the event's token inside the 3-interval window is returned by
the claimed retrieval over the full transaction set, but the source filters
the evidence from the whale-filtered frame and omits it. -/
theorem relevant_transactions_whale_cex :
    claimed_relevant_transactions 50 5 "T" [⟨200, some "T", 600⟩] =
      [⟨200, some "T", 600⟩] ∧
    relevant_transactions 50 5 "T" [⟨200, some "T", 600⟩] = [] ∧
    claimed_relevant_transactions 50 5 "T" [⟨200, some "T", 600⟩] ≠
      relevant_transactions 50 5 "T" [⟨200, some "T", 600⟩] := by
  have h1 : claimed_relevant_transactions 50 5 "T" [⟨200, some "T", 600⟩] =
      [⟨200, some "T", 600⟩] := by
    norm_num [claimed_relevant_transactions, txInterval, intervalId]
  have h2 : relevant_transactions 50 5 "T" [⟨200, some "T", 600⟩] = [] := by
    norm_num [relevant_transactions, sortByBlock, txInterval, intervalId, whale_cap,
      List.mergeSort]
  refine ⟨h1, h2, ?_⟩
  rw [h1, h2]
  simp

/-- Claim C5 (amended): for every event and transaction set, the evidence
retrieval returns exactly the non-whale transactions
(`tx_value_eth < whale_cap`) whose `token_type` equals the event's and whose
`interval_id` lies in the inclusive range
`[event.interval_id - 2, event.interval_id]` — as a multiset: every such
transaction is included and no other. -/
theorem relevant_transactions_window (interval_blocks event_interval : ℕ)
    (tok : String) (txs : List Tx) :
    (relevant_transactions interval_blocks event_interval tok txs).Perm
      (txs.filter
        (fun t => (decide ((event_interval : ℤ) - 2 ≤ (txInterval interval_blocks t : ℤ)) &&
            decide (txInterval interval_blocks t ≤ event_interval) &&
            decide (t.tx_token_type = some tok)) &&
          decide (t.tx_value_eth < whale_cap))) := by
  unfold relevant_transactions
  rw [List.filter_filter]
  exact (List.mergeSort_perm txs _).filter _

/-- Claim C6: removing every whale transaction (`tx_value_eth ≥ whale_cap`)
from the input leaves every per-(interval, token) aggregate sum unchanged:
whales contribute 0 to every `IntervalAggregate`.  The detection thresholds
do not occur in the aggregation at all. -/
theorem whale_contributes_nothing (interval_blocks iv : ℕ) (tok : String)
    (txs : List Tx) :
    interval_sums interval_blocks (whaleFilter txs) iv tok =
      interval_sums interval_blocks txs iv tok := by
  have key : ∀ l : List Tx, interval_sums interval_blocks l iv tok =
      (((l.filter (fun t => decide (t.tx_value_eth < whale_cap))).filter
        (fun t => decide (txInterval interval_blocks t = iv) &&
          decide (t.tx_token_type = some tok))).map Tx.tx_value_eth).sum := by
    intro l
    unfold interval_sums sortByBlock
    exact ((((List.mergeSort_perm l _).filter _).filter _).map _).sum_eq
  rw [key, key]
  unfold whaleFilter
  have hww : (txs.filter (fun t => decide (t.tx_value_eth < whale_cap))).filter
      (fun t => decide (t.tx_value_eth < whale_cap)) =
      txs.filter (fun t => decide (t.tx_value_eth < whale_cap)) := by
    rw [List.filter_filter]
    simp
  rw [hww]

/-- Hexadecimal digit test: the characters accepted in the digits of
`int(s, 16)` (the Python parser's additional tolerance for sign, whitespace
and underscores is not modelled; no claim input uses it). -/
def isHexDigitChar (c : Char) : Bool :=
  c.isDigit || (decide ('a' ≤ c) && decide (c ≤ 'f')) ||
    (decide ('A' ≤ c) && decide (c ≤ 'F'))

/-- Numeric value of one hexadecimal digit character. -/
def hexVal (c : Char) : ℕ :=
  if c.isDigit then c.toNat - 48
  else if decide ('a' ≤ c) && decide (c ≤ 'f') then c.toNat - 87
  else c.toNat - 55

/-- Python `int(s, 16)` applied to the digits after the `0x` prefix: the
base-16 value when the digit list is non-empty and all-hexadecimal,
otherwise `none` (a `ValueError`). -/
def parseHex (cs : List Char) : Option ℕ :=
  if cs ≠ [] ∧ cs.all isHexDigitChar then
    some (cs.foldl (fun a c => 16 * a + hexVal c) 0)
  else none

/-- The shapes a raw `transaction["value"]` can have in
`safe_eth_conversion`: a Python `str` (as a char list), an `int`/`float`
(as `ℚ`), or anything else (`None`, `dict`, `list`, ...). -/
inductive RawValue where
  | str (chars : List Char)
  | num (q : ℚ)
  | other

/-- Python `value.startswith("0x")`. -/
def startsWith0x : List Char → Bool
  | '0' :: 'x' :: _ => true
  | _ => false

/-- modify_transactions.py `safe_eth_conversion`: a `0x`-prefixed string is
parsed as `int(value, 16) / 10**18` (raising `ValueError` when the hex
digits do not parse), an `int`/`float` becomes `value / 10**18`, and any
other shape returns 0. -/
def safe_eth_conversion : RawValue → Except String ℚ
  | RawValue.str cs =>
    if startsWith0x cs then
      match parseHex (cs.drop 2) with
      | some n => Except.ok ((n : ℚ) / 10 ^ 18)
      | none => Except.error "ValueError"
    else Except.ok 0
  | RawValue.num q => Except.ok (q / 10 ^ 18)
  | RawValue.other => Except.ok 0

/-- Base-16 digit character of a value below 16. -/
def hexDigitChar (d : ℕ) : Char :=
  if d < 10 then Char.ofNat (48 + d) else Char.ofNat (87 + d)

/-- Base-16 rendering of a natural number, most significant digit first,
with structural fuel (any fuel above the number itself is enough). -/
def natToHexAux : ℕ → ℕ → List Char
  | 0, _ => []
  | fuel + 1, n =>
    if n < 16 then [hexDigitChar n]
    else natToHexAux fuel (n / 16) ++ [hexDigitChar (n % 16)]

/-- Canonical lowercase hexadecimal rendering of a natural number. -/
def natToHex (n : ℕ) : List Char := natToHexAux (n + 1) n

/-- A rendered hex digit is accepted by the digit test. -/
theorem hexDigitChar_isHex {d : ℕ} (h : d < 16) :
    isHexDigitChar (hexDigitChar d) = true := by
  interval_cases d <;> decide

/-- Rendering then valuing a digit below 16 is the identity. -/
theorem hexVal_hexDigitChar {d : ℕ} (h : d < 16) :
    hexVal (hexDigitChar d) = d := by
  interval_cases d <;> decide

/-- The rendered digits of `n` are non-empty, all hexadecimal, and fold back
to `n` under the base-16 accumulator. -/
theorem natToHexAux_spec :
    ∀ fuel n, n < fuel →
      natToHexAux fuel n ≠ [] ∧
      (natToHexAux fuel n).all isHexDigitChar = true ∧
      ∀ a : ℕ, (natToHexAux fuel n).foldl (fun x c => 16 * x + hexVal c) a =
        a * 16 ^ (natToHexAux fuel n).length + n := by
  intro fuel
  induction fuel with
  | zero => intro n hn; omega
  | succ fuel ih =>
    intro n hn
    by_cases h16 : n < 16
    · refine ⟨by simp [natToHexAux, h16], by simp [natToHexAux, h16, hexDigitChar_isHex h16], ?_⟩
      intro a
      simp [natToHexAux, h16, List.foldl, hexVal_hexDigitChar h16]
      ring
    · have hdiv : n / 16 < fuel := by
        have h1 : n / 16 < n := Nat.div_lt_self (by omega) (by omega)
        omega
      obtain ⟨hne, hall, hfold⟩ := ih (n / 16) hdiv
      have hmod : n % 16 < 16 := Nat.mod_lt _ (by omega)
      refine ⟨by simp [natToHexAux, h16], ?_, ?_⟩
      · simp [natToHexAux, h16, List.all_append, hall, hexDigitChar_isHex hmod]
      · intro a
        have hdm : 16 * (n / 16) + n % 16 = n := Nat.div_add_mod n 16
        simp only [natToHexAux, if_neg h16, List.foldl_append, List.length_append,
          List.length_singleton]
        rw [hfold a]
        simp only [List.foldl, hexVal_hexDigitChar hmod]
        calc 16 * (a * 16 ^ (natToHexAux fuel (n / 16)).length + n / 16) + n % 16
            = a * (16 ^ (natToHexAux fuel (n / 16)).length * 16) +
                (16 * (n / 16) + n % 16) := by ring
          _ = a * 16 ^ ((natToHexAux fuel (n / 16)).length + 1) + n := by
              rw [hdm, pow_succ]

/-- `parseHex` is a left inverse of the canonical rendering `natToHex`. -/
theorem parseHex_natToHex (n : ℕ) : parseHex (natToHex n) = some n := by
  obtain ⟨hne, hall, hfold⟩ := natToHexAux_spec (n + 1) n (by omega)
  unfold natToHex
  unfold parseHex
  rw [if_pos ⟨hne, hall⟩]
  rw [hfold 0]
  simp

/-- Claim C9 (amended): a valid `0x`-prefixed hexadecimal string and the
plain number it denotes resolve to the same parsed value; a string without
the `0x` prefix, and any non-string non-numeric shape, resolve to 0 without
raising; but a `0x`-prefixed string whose digits are not valid hexadecimal
raises `ValueError` — parsing is not exception-free for every input shape. -/
theorem safe_eth_conversion_cases (n : ℕ) (cs ds : List Char)
    (hcs : startsWith0x cs = false)
    (hds : startsWith0x ds = true) (hbad : parseHex (ds.drop 2) = none) :
    safe_eth_conversion (RawValue.str ('0' :: 'x' :: natToHex n)) =
      Except.ok ((n : ℚ) / 10 ^ 18) ∧
    safe_eth_conversion (RawValue.num (n : ℚ)) = Except.ok ((n : ℚ) / 10 ^ 18) ∧
    safe_eth_conversion (RawValue.str cs) = Except.ok 0 ∧
    safe_eth_conversion RawValue.other = Except.ok 0 ∧
    safe_eth_conversion (RawValue.str ds) = Except.error "ValueError" := by
  refine ⟨?_, rfl, ?_, rfl, ?_⟩
  · simp only [safe_eth_conversion]
    rw [if_pos (show startsWith0x ('0' :: 'x' :: natToHex n) = true from rfl)]
    rw [show List.drop 2 ('0' :: 'x' :: natToHex n) = natToHex n from rfl,
      parseHex_natToHex n]
  · simp only [safe_eth_conversion]
    rw [if_neg (by simp [hcs])]
  · simp only [safe_eth_conversion]
    rw [if_pos hds, hbad]

/-- Witness for `safe_eth_conversion_cases`: the hex string `0x1a`, the
number 26, the non-prefixed string `10`, and the invalid hex string `0xzz`. -/
theorem safe_eth_conversion_cases_witness :
    safe_eth_conversion (RawValue.str ('0' :: 'x' :: natToHex 26)) =
      Except.ok ((26 : ℚ) / 10 ^ 18) ∧
    safe_eth_conversion (RawValue.num (26 : ℚ)) = Except.ok ((26 : ℚ) / 10 ^ 18) ∧
    safe_eth_conversion (RawValue.str ['1', '0']) = Except.ok 0 ∧
    safe_eth_conversion RawValue.other = Except.ok 0 ∧
    safe_eth_conversion (RawValue.str ['0', 'x', 'z', 'z']) =
      Except.error "ValueError" :=
  safe_eth_conversion_cases 26 ['1', '0'] ['0', 'x', 'z', 'z'] rfl rfl (by decide)

/-- Counterexample to claim C9 as stated ("value parsing never raises an
exception for any input shape"): the `0x`-prefixed but non-hexadecimal
string `0xzz` makes `int(value, 16)` raise `ValueError`. -/
theorem safe_eth_conversion_raises_cex :
    safe_eth_conversion (RawValue.str ['0', 'x', 'z', 'z']) =
      Except.error "ValueError" ∧
    (safe_eth_conversion (RawValue.str ['0', 'x', 'z', 'z'])).isOk = false :=
  ⟨rfl, rfl⟩

/-- pump_n_dump.py `__main__`:
`transactions_df["tx_value_eth"] = transactions_df["tx_value"] / 1e10`. -/
def main_tx_value_eth (value_wei : ℚ) : ℚ := value_wei / 10 ^ 10

/-- Claim C2 evaluated at the failing input `value_wei = 10^18` (one ETH):
the detection pipeline's own conversion divides by `10^10`, yielding `10^8`
instead of 1, and multiplying it back by `10^18` does not recover the wei
value; the normalizer path `safe_eth_conversion` divides by `10^18` as the
claim states and round-trips exactly. -/
theorem main_tx_value_eth_wrong_exponent :
    main_tx_value_eth (10 ^ 18) = 10 ^ 8 ∧
    main_tx_value_eth (10 ^ 18) ≠ (10 ^ 18 : ℚ) / 10 ^ 18 ∧
    main_tx_value_eth (10 ^ 18) * 10 ^ 18 ≠ 10 ^ 18 ∧
    safe_eth_conversion (RawValue.num (10 ^ 18)) = Except.ok 1 ∧
    (1 : ℚ) * 10 ^ 18 = 10 ^ 18 := by
  refine ⟨?_, ?_, ?_, ?_, by norm_num⟩
  · norm_num [main_tx_value_eth]
  · norm_num [main_tx_value_eth]
  · norm_num [main_tx_value_eth]
  · show Except.ok ((10 ^ 18 : ℚ) / 10 ^ 18) = Except.ok 1
    norm_num

/-- split_data.py `split_jsonl`, writer-state recursion: `cur` holds the
lines already written to the currently open chunk file and `curSize` its
byte count (`len(line.encode("utf-8"))` summed); a line that would push the
current chunk past `chunk_size` closes it and opens the next one, and the
line is then written whole to the open chunk.  The result is the list of
chunk files' contents in index order. -/
def split_jsonl_go (chunk_size : ℕ) : List String → List String → ℕ → List (List String)
  | [], cur, _ => [cur]
  | line :: rest, cur, curSize =>
    if curSize + line.utf8ByteSize > chunk_size then
      cur :: split_jsonl_go chunk_size rest [line] line.utf8ByteSize
    else
      split_jsonl_go chunk_size rest (cur ++ [line]) (curSize + line.utf8ByteSize)

/-- split_data.py `split_jsonl`: the first chunk file is open before any
line is read. -/
def split_jsonl (chunk_size : ℕ) (lines : List String) : List (List String) :=
  split_jsonl_go chunk_size lines [] 0

/-- The splitter state invariant: the chunks produced from any writer state
concatenate to the lines already in the open chunk followed by the remaining
input lines. -/
theorem split_jsonl_go_flatten (chunk_size : ℕ) (lines : List String) :
    ∀ (cur : List String) (curSize : ℕ),
      (split_jsonl_go chunk_size lines cur curSize).flatten = cur ++ lines := by
  induction lines with
  | nil => intro cur curSize; simp [split_jsonl_go]
  | cons line rest ih =>
    intro cur curSize
    unfold split_jsonl_go
    by_cases h : curSize + line.utf8ByteSize > chunk_size
    · rw [if_pos h]
      simp [ih]
    · rw [if_neg h]
      rw [ih]
      simp

/-- Claim C10: every input line is written intact into exactly one output
chunk, in order — concatenating the chunk contents in index order
reproduces the input line sequence exactly. -/
theorem split_jsonl_preserves_content (chunk_size : ℕ) (lines : List String) :
    (split_jsonl chunk_size lines).flatten = lines := by
  unfold split_jsonl
  simpa using split_jsonl_go_flatten chunk_size lines [] 0
